import Mathlib

/-!
Shallow embedding of the weekly habit tracker (src/main.py).

The program keeps a single in-memory document:
  daily_data : dict from date string ("YYYY-MM-DD") to a day record,
  habits : list of habit names,
  task_templates : list of task template names.
Dates are modelled as integers (day numbers); the YYYY-MM-DD strings used as
dictionary keys are in bijection with calendar days, and the displayed week is
the 7 consecutive days starting at the week start.  Python dictionaries are
modelled as insertion-ordered association lists; real dictionaries never hold a
duplicate key, and every operation below preserves that shape.  The chart
percentages are computed with Python float arithmetic, int((c / t) * 100):
binary64 division rounded to nearest (ties to even), an exact int-to-float
conversion of 100, a binary64 multiplication rounded the same way, and int()
truncation; pyPercent below models that computation bit-exactly over dyadic
rationals for every value these expressions can take (nonnegative, far inside
the normal binary64 range; subnormal underflow and overflow cannot arise).
-/

set_option maxRecDepth 8000

namespace HabitTracker

/-- Insertion-ordered association list modelling a Python dict. -/
abbrev Dict (α β : Type) := List (α × β)

/-- Python d[k] read / "k in d": first (unique) entry with key k. -/
def dget {α β : Type} [DecidableEq α] : Dict α β → α → Option β
  | [], _ => none
  | (k0, v0) :: rest, k => if k0 = k then some v0 else dget rest k

/-- Python d[k] = v: overwrite the entry in place if the key exists, else append. -/
def dset {α β : Type} [DecidableEq α] : Dict α β → α → β → Dict α β
  | [], k, v => [(k, v)]
  | (k0, v0) :: rest, k, v =>
    if k0 = k then (k, v) :: rest else (k0, v0) :: dset rest k v

/-- Python d.pop(k, ...): remove the (unique) entry with key k, if any. -/
def derase {α β : Type} [DecidableEq α] : Dict α β → α → Dict α β
  | [], _ => []
  | (k0, v0) :: rest, k =>
    if k0 = k then derase rest k else (k0, v0) :: derase rest k

/-- One entry of daily_data (src/main.py, initialize_week_data). -/
structure DayRecord where
  tasks : List String
  task_status : Dict String Bool
  habits : Dict String Bool
deriving DecidableEq

/-- The persisted document plus the in-memory lists (TrackerApp state). -/
structure Store where
  daily_data : Dict Int DayRecord
  habits : List String
  task_templates : List String
deriving DecidableEq

/-- Whitespace characters removed by Python str.strip (ASCII range). -/
def isPySpace (c : Char) : Bool :=
  c = ' ' || c = '\t' || c = '\n' || c = '\r' || c = Char.ofNat 11 || c = Char.ofNat 12

/-- Python str.strip(): drop leading and trailing whitespace. -/
def pyStrip (s : String) : String :=
  ⟨((s.data.dropWhile isPySpace).reverse.dropWhile isPySpace).reverse⟩

/-- Python list.index for strings (callers establish membership first). -/
def listIndex : List String → String → Nat
  | [], _ => 0
  | y :: ys, x => if y = x then 0 else listIndex ys x + 1

/-- Apply f to every record of daily_data (the Python loops
"for date in self.daily_data:" mutate each record in place). -/
def mapRecords (f : DayRecord → DayRecord) (dd : Dict Int DayRecord) :
    Dict Int DayRecord :=
  dd.map (fun p => (p.1, f p.2))

/-- Python dict comprehension with a constant false value,
as in "\x7bt: False for t in self.task_templates\x7d" (duplicate names collapse). -/
def allFalseDict (names : List String) : Dict String Bool :=
  names.foldl (fun acc n => dset acc n false) []

/-- The fresh record built by initialize_week_data for a missing date. -/
def freshRecord (s : Store) : DayRecord :=
  ⟨s.task_templates, allFalseDict s.task_templates, allFalseDict s.habits⟩

/-- The reconciliation loop of initialize_week_data for an existing date:
every global habit missing from the map is inserted with value false. -/
def reconcileHabits (hs : List String) (m : Dict String Bool) : Dict String Bool :=
  hs.foldl (fun acc h => if (dget acc h).isSome then acc else dset acc h false) m

/-- One iteration of the initialize_week_data loop, at date d. -/
def initDay (s : Store) (d : Int) : Store :=
  match dget s.daily_data d with
  | none => { s with daily_data := dset s.daily_data d (freshRecord s) }
  | some r =>
    let r2 := { r with habits := reconcileHabits s.habits r.habits }
    { s with daily_data := dset s.daily_data d r2 }

/-- The 7 displayed dates, week_start + 0 .. week_start + 6. -/
def week_dates (w : Int) : List Int :=
  (List.range 7).map (fun i => w + (i : Int))

/-- TrackerApp.initialize_week_data: materialize the 7 days of the week. -/
def initialize_week_data (s : Store) (w : Int) : Store :=
  (week_dates w).foldl initDay s

/-- TrackerApp.update_habit: daily_data[date]["habits"][habit] = status.
A missing date makes the subscript raise KeyError (modelled as error);
the store is then left untouched. -/
def update_habit (s : Store) (habit : String) (d : Int) (v : Bool) :
    Except Unit Store :=
  match dget s.daily_data d with
  | none => Except.error ()
  | some r =>
    let r2 := { r with habits := dset r.habits habit v }
    Except.ok { s with daily_data := dset s.daily_data d r2 }

/-- TrackerApp.update_task: daily_data[date]["task_status"][task] = status. -/
def update_task (s : Store) (task : String) (d : Int) (v : Bool) :
    Except Unit Store :=
  match dget s.daily_data d with
  | none => Except.error ()
  | some r =>
    let r2 := { r with task_status := dset r.task_status task v }
    Except.ok { s with daily_data := dset s.daily_data d r2 }

/-- The app installs report_callback_exception, which logs any exception that
escapes a Tk widget callback and continues; the store keeps its old value. -/
def tkDispatch (f : Store → Except Unit Store) (s : Store) : Store :=
  match f s with
  | Except.ok s2 => s2
  | Except.error _ => s

/-- TrackerApp.add_habit_global: strip the entry text, reject blank input and
duplicates, else append to habits and seed habits[text] = False in every record. -/
def add_habit_global (s : Store) (input : String) : Store :=
  let text := pyStrip input
  if text = "" then s
  else if text ∈ s.habits then s
  else
    let dd := mapRecords (fun r => { r with habits := dset r.habits text false }) s.daily_data
    { s with habits := s.habits ++ [text], daily_data := dd }

/-- TrackerApp.add_habit_inline: same semantics from the inline entry widget. -/
def add_habit_inline (s : Store) (input : String) : Store :=
  let newHabit := pyStrip input
  if newHabit = "" then s
  else if newHabit ∈ s.habits then s
  else
    let dd := mapRecords (fun r => { r with habits := dset r.habits newHabit false }) s.daily_data
    { s with habits := s.habits ++ [newHabit], daily_data := dd }

/-- TrackerApp.add_task_template: duplicates are rejected against the global
template list only; the name is then appended to every day and seeded false. -/
def add_task_template (s : Store) (input : String) : Store :=
  let text := pyStrip input
  if text = "" then s
  else if text ∈ s.task_templates then s
  else
    let f := fun (r : DayRecord) =>
      { r with tasks := r.tasks ++ [text], task_status := dset r.task_status text false }
    { s with task_templates := s.task_templates ++ [text], daily_data := mapRecords f s.daily_data }

/-- TrackerApp.edit_habit: the dialog input is accepted when it is non-blank
and differs from the old name; a collision with an existing habit is rejected;
otherwise the name is replaced in place in the list and, in every record, the
old key is popped (default False) and the value reinserted under the new name.
When the old name is not in the list, list.index raises and the surrounding
try block logs the error, leaving the store unchanged. -/
def edit_habit (s : Store) (oldHabit : String) (input : String) : Store :=
  if input ≠ "" ∧ pyStrip input ≠ "" ∧ input ≠ oldHabit then
    let newHabit := pyStrip input
    if newHabit ∈ s.habits then s
    else if oldHabit ∈ s.habits then
      let f := fun (r : DayRecord) =>
        let m := dset (derase r.habits oldHabit) newHabit ((dget r.habits oldHabit).getD false)
        { r with habits := m }
      { s with habits := s.habits.set (listIndex s.habits oldHabit) newHabit, daily_data := mapRecords f s.daily_data }
    else s
  else s

/-- TrackerApp.delete_habit: only when the name is in the global list is the
confirmation dialog shown; on confirmation the name is removed from the list
and the key popped from every record. -/
def delete_habit (s : Store) (habit : String) (confirm : Bool) : Store :=
  if habit ∈ s.habits then
    if confirm then
      let dd := mapRecords (fun r => { r with habits := derase r.habits habit }) s.daily_data
      { s with habits := s.habits.erase habit, daily_data := dd }
    else s
  else s

/-! The binary64 model.  A nonnegative float is a dyadic rational, kept as a
pair (m, e) with value m * 2 ^ e; rounding to 53 significant bits is round to
nearest, ties to even, as IEEE 754 and Python prescribe. -/

/-- Floor of the base-2 logarithm, with structural fuel so that the kernel can
evaluate it; 600 halvings cover every number these definitions build. -/
def log2f : ℕ → ℕ → ℕ
  | 0, _ => 0
  | fuel + 1, n => if n ≤ 1 then 0 else log2f fuel (n / 2) + 1

/-- Round a / b to the nearest integer, ties to even (for b > 0). -/
def rneDiv (a b : ℕ) : ℕ :=
  let q := a / b
  let r := a % b
  if 2 * r < b then q
  else if b < 2 * r then q + 1
  else if q % 2 = 0 then q else q + 1

/-- Python float true division a / b of nonnegative integers: the binary64
value nearest to a / b, as a dyadic pair.  The exponent is read off a scaled
integer quotient; the significand is a / b scaled into [2 ^ 52, 2 ^ 53] and
rounded to nearest, ties to even. -/
def floatDiv (a b : ℕ) : ℕ × ℤ :=
  if a = 0 ∨ b = 0 then (0, 0)
  else
    let e : ℤ := (log2f 600 (a * 2 ^ 200 / b) : ℤ) - 200
    let s : ℤ := 52 - e
    if 0 ≤ s then (rneDiv (a * 2 ^ s.toNat) b, e - 52)
    else (rneDiv a (b * 2 ^ (-s).toNat), e - 52)

/-- Python float multiplication by 100 (100 converts to binary64 exactly):
the integer m * 100 rounded back to 53 significant bits, ties to even. -/
def floatTimes100 : ℕ × ℤ → ℕ × ℤ
  | (m, e) =>
    let bigM := m * 100
    if bigM = 0 then (0, 0)
    else
      let k := log2f 600 bigM
      if k ≤ 52 then (bigM, e)
      else (rneDiv bigM (2 ^ (k - 52)), e + ((k : ℤ) - 52))

/-- Python int() truncation of a nonnegative float value. -/
def truncDyadic : ℕ × ℤ → ℕ
  | (m, e) => if 0 ≤ e then m * 2 ^ e.toNat else m / 2 ^ (-e).toNat

/-- int((c / t) * 100) exactly as Python evaluates it: binary64 division,
binary64 multiplication by 100, int() truncation. -/
def pyPercent (c t : ℕ) : ℕ :=
  truncDyadic (floatTimes100 (floatDiv c t))

/-- Day task counters used by the chart code:
completed = sum(1 for t in tasks if task_status.get(t, False)). -/
def day_completed (r : DayRecord) : Nat :=
  r.tasks.countP (fun t => (dget r.task_status t).getD false)

/-- The denominator of dayCompletionRate: the length of the tasks list. -/
def totalTaskCount (r : DayRecord) : Nat :=
  r.tasks.length

/-- percent = int((completed / total) * 100) with total = len(tasks) if tasks
else 1, as computed with float arithmetic in update_all_charts and the bar
chart code. -/
def day_percent (r : DayRecord) : Nat :=
  let total := if r.tasks.isEmpty then 1 else r.tasks.length
  pyPercent (day_completed r) total

/-- The per-day percentage read off the store; a date with no record is shown
as 0 by the bar chart loop. -/
def dayCompletionRate (s : Store) (d : Int) : Nat :=
  match dget s.daily_data d with
  | none => 0
  | some r => day_percent r

/-- Aggregate (total, completed) over the 7 displayed days, skipping dates
with no record, as in update_bar_chart. -/
def weekly_totals (s : Store) (w : Int) : Nat × Nat :=
  (week_dates w).foldl
    (fun acc d =>
      match dget s.daily_data d with
      | none => acc
      | some r => (acc.1 + r.tasks.length, acc.2 + day_completed r))
    (0, 0)

/-- weekly_percent = int((completed_tasks / total_tasks * 100)) if
total_tasks > 0 else 0, computed with float arithmetic
(update_bar_chart / create_bar_chart_section). -/
def weekly_percent (s : Store) (w : Int) : Nat :=
  let t := weekly_totals s w
  if 0 < t.1 then pyPercent t.2 t.1 else 0

/-- Number of the 7 displayed days on which the habit flag is true.  The habit
checkboxes are created from daily_data[date]["habits"].get(habit, False) and
update_habit keeps them in lockstep with the store, so the count over the
checkbox variables in update_all_charts equals this count over the store. -/
def habit_true_count (s : Store) (w : Int) (h : String) : Nat :=
  (week_dates w).countP
    (fun d => ((dget s.daily_data d).bind (fun r => dget r.habits h)).getD false)

/-- percent = int((completed / 7) * 100) in update_all_charts. -/
def habit_weekly_percent (s : Store) (w : Int) (h : String) : Nat :=
  habit_true_count s w h * 100 / 7

/-- DataManager.calculate_habit_completion_rate: (completed / 7) * 100 as an
exact rational (the Python function returns the untruncated quotient). -/
def calculate_habit_completion_rate (s : Store) (w : Int) (h : String) : ℚ :=
  (habit_true_count s w h : ℚ) / 7 * 100

/-! Specification-side formulations of the derived metrics, written from the
wording of the spec (truncated integer percentage of an exact ratio, guarded
at denominator zero, numerator counting the task-list names whose status entry
is true). -/

/-- Spec wording of dayCompletionRate for a day record. -/
def spec_dayCompletionRate (r : DayRecord) : Nat :=
  let total := totalTaskCount r
  let completed := (r.tasks.filter (fun t => decide (dget r.task_status t = some true))).length
  if total = 0 then 0 else Nat.floor ((completed : ℚ) / (total : ℚ) * 100)

/-- Spec wording: sum of per-day task totals over the 7 displayed days. -/
def spec_weekTotal (s : Store) (w : Int) : Nat :=
  ((week_dates w).map (fun d =>
    match dget s.daily_data d with
    | none => 0
    | some r => totalTaskCount r)).sum

/-- Spec wording: sum of per-day completed counts over the 7 displayed days. -/
def spec_weekCompleted (s : Store) (w : Int) : Nat :=
  ((week_dates w).map (fun d =>
    match dget s.daily_data d with
    | none => 0
    | some r => (r.tasks.filter (fun t => decide (dget r.task_status t = some true))).length)).sum

/-- Spec wording of weeklyTaskRate. -/
def spec_weeklyTaskRate (s : Store) (w : Int) : Nat :=
  if spec_weekTotal s w = 0 then 0
  else Nat.floor ((spec_weekCompleted s w : ℚ) / (spec_weekTotal s w : ℚ) * 100)

/-- The day rate with the float evaluation made explicit: the int() truncation
of the binary64 computation of (completed / total) * 100 over the spec-side
counts, 0 at an empty tasks list. -/
def spec_dayCompletionRateFloat (r : DayRecord) : Nat :=
  let total := totalTaskCount r
  let completed := (r.tasks.filter (fun t => decide (dget r.task_status t = some true))).length
  if total = 0 then 0 else pyPercent completed total

/-- The weekly rate with the float evaluation made explicit, 0 at an aggregate
denominator of 0. -/
def spec_weeklyTaskRateFloat (s : Store) (w : Int) : Nat :=
  if spec_weekTotal s w = 0 then 0
  else pyPercent (spec_weekCompleted s w) (spec_weekTotal s w)

/-! Concrete stores used to evaluate the theorems below at explicit inputs. -/

/-- A store with no day records, no habits and no templates. -/
def emptyStore : Store := ⟨[], [], []⟩

/-- A day with tasks A, B, C of which A and B are completed. -/
def c1Rec : DayRecord := ⟨["A", "B", "C"], [("A", true), ("B", true)], []⟩

/-- A store holding c1Rec under date 0. -/
def c1Store : Store := ⟨[(0, c1Rec)], [], ["A", "B", "C"]⟩

/-- A day on which the habit Sleep is marked done. -/
def sleepDay : DayRecord := ⟨[], [], [("Sleep", true)]⟩

/-- Sleep is true on 3 of the 7 displayed days of week 0. -/
def c2Store : Store := ⟨[(0, sleepDay), (1, sleepDay), (2, sleepDay)], ["Sleep"], []⟩

/-- A pre-existing day record with one task and an orphaned habit key X. -/
def c4Rec : DayRecord := ⟨["T0"], [("T0", true)], [("X", true)]⟩

/-- A store where only date 1 of week 0 is materialized. -/
def c4Store : Store := ⟨[(1, c4Rec)], ["H"], ["A"]⟩

/-- A store whose only habit is the empty string. -/
def c5Store : Store := ⟨[], [""], []⟩

/-- A day on which habit a is marked done. -/
def c5WitRec : DayRecord := ⟨[], [], [("a", true)]⟩

/-- A store with habit a marked done on date 0. -/
def c5WitStore : Store := ⟨[(0, c5WitRec)], ["a"], []⟩

/-- A day record carrying an orphaned habits key Read. -/
def c8Rec : DayRecord := ⟨[], [], [("Read", true)]⟩

/-- Read is a day-level key but absent from the global habit list. -/
def c8Store : Store := ⟨[(0, c8Rec)], [], []⟩

/-- Read is in the global habit list and has a day-level entry. -/
def c8WitStore : Store := ⟨[(0, c8Rec)], ["Read", "Sleep"], ["T"]⟩

/-- Date 0 already carries T as a day-specific task, T is not a template. -/
def c9Store : Store := ⟨[(0, ⟨["T"], [("T", true)], []⟩)], [], []⟩

/-- 50 distinct task names. -/
def fiftyTasks : List String := (List.range 50).map (fun i => toString i)

/-- A day with 50 tasks of which the first 29 are completed: Python evaluates
int((29 / 50) * 100) to 57 because the product is 57.99999999999999…, one
below the exact truncated percentage 58. -/
def fiftyTasksRec : DayRecord :=
  ⟨fiftyTasks, (List.range 50).map (fun i => (toString i, decide (i < 29))), []⟩

/-- A store holding the 29-of-50 day under date 0 of week 0. -/
def fiftyTasksStore : Store := ⟨[(0, fiftyTasksRec)], [], fiftyTasks⟩

end HabitTracker


namespace HabitTracker

/-! Basic dictionary lemmas. -/

theorem dget_dset_self {α β : Type} [DecidableEq α] (m : Dict α β) (k : α) (v : β) :
    dget (dset m k v) k = some v := by
  induction m with
  | nil => simp [dset, dget]
  | cons p rest ih =>
    obtain ⟨k0, v0⟩ := p
    by_cases hp : k0 = k
    · simp [dset, dget, hp]
    · simp [dset, dget, hp, ih]

theorem dget_dset_ne {α β : Type} [DecidableEq α] (m : Dict α β) (k k2 : α) (v : β)
    (h : k2 ≠ k) : dget (dset m k v) k2 = dget m k2 := by
  have hk : k ≠ k2 := Ne.symm h
  induction m with
  | nil => simp [dset, dget, hk]
  | cons p rest ih =>
    obtain ⟨k0, v0⟩ := p
    by_cases hp : k0 = k
    · have h0 : k0 ≠ k2 := by rw [hp]; exact hk
      simp [dset, dget, hp, hk, h0]
    · simp [dset, dget, hp, ih]

theorem isSome_dget_dset {α β : Type} [DecidableEq α] (m : Dict α β) (k k2 : α) (v : β)
    (h : (dget m k2).isSome) : (dget (dset m k v) k2).isSome := by
  by_cases hk : k2 = k
  · subst hk; simp [dget_dset_self]
  · rwa [dget_dset_ne m k k2 v hk]

theorem dget_derase_self {α β : Type} [DecidableEq α] (m : Dict α β) (k : α) :
    dget (derase m k) k = none := by
  induction m with
  | nil => simp [derase, dget]
  | cons p rest ih =>
    obtain ⟨k0, v0⟩ := p
    by_cases hp : k0 = k
    · simp [derase, hp, ih]
    · simp [derase, dget, hp, ih]

theorem dget_derase_ne {α β : Type} [DecidableEq α] (m : Dict α β) (k k2 : α)
    (h : k2 ≠ k) : dget (derase m k) k2 = dget m k2 := by
  induction m with
  | nil => simp [derase]
  | cons p rest ih =>
    obtain ⟨k0, v0⟩ := p
    by_cases hp : k0 = k
    · have h0 : k0 ≠ k2 := by rw [hp]; exact Ne.symm h
      simp [derase, dget, hp, h0, Ne.symm h, ih]
    · simp [derase, dget, hp, ih]

theorem dget_mapRecords (f : DayRecord → DayRecord) (dd : Dict Int DayRecord) (d : Int) :
    dget (mapRecords f dd) d = (dget dd d).map f := by
  induction dd with
  | nil => simp [mapRecords, dget]
  | cons p rest ih =>
    obtain ⟨k0, v0⟩ := p
    by_cases hp : k0 = d
    · simp [mapRecords, dget, hp]
    · simpa [mapRecords, dget, hp] using ih

theorem dget_fold_allFalse (ns : List String) (m : Dict String Bool) (k : String) :
    dget (ns.foldl (fun acc n => dset acc n false) m) k
      = if k ∈ ns then some false else dget m k := by
  induction ns generalizing m with
  | nil => simp
  | cons n rest ih =>
    rw [List.foldl_cons, ih]
    by_cases hk : k ∈ rest
    · simp [hk, List.mem_cons]
    · by_cases hn : k = n
      · subst hn; simp [hk, dget_dset_self]
      · simp [hk, hn, List.mem_cons, dget_dset_ne m n k false hn]

theorem dget_allFalseDict (ns : List String) (k : String) :
    dget (allFalseDict ns) k = if k ∈ ns then some false else none := by
  simpa [allFalseDict] using dget_fold_allFalse ns [] k

end HabitTracker

namespace HabitTracker

/-! Truncation arithmetic and counting lemmas. -/

theorem natFloor_ratio_mul_100 (c t : Nat) :
    Nat.floor ((c : ℚ) / (t : ℚ) * 100) = c * 100 / t := by
  have hcast : (c : ℚ) / (t : ℚ) * 100 = ((c * 100 : ℕ) : ℚ) / ((t : ℕ) : ℚ) := by
    push_cast
    ring
  rw [hcast, Nat.floor_div_nat, Nat.floor_natCast]

theorem getD_false_eq_decide (o : Option Bool) :
    o.getD false = decide (o = some true) := by
  cases o with
  | none => simp
  | some b => cases b <;> simp

theorem day_completed_eq_filter (r : DayRecord) :
    day_completed r
      = (r.tasks.filter (fun t => decide (dget r.task_status t = some true))).length := by
  have hp : (fun t => (dget r.task_status t).getD false)
      = (fun t => decide (dget r.task_status t = some true)) := by
    funext t
    exact getD_false_eq_decide (dget r.task_status t)
  unfold day_completed
  rw [List.countP_eq_length_filter, hp]

theorem weekly_totals_fold (ds : List Int) (s : Store) (a b : Nat) :
    ds.foldl
      (fun acc d =>
        match dget s.daily_data d with
        | none => acc
        | some r => (acc.1 + r.tasks.length, acc.2 + day_completed r)) (a, b)
    = (a + (ds.map (fun d =>
          match dget s.daily_data d with
          | none => 0
          | some r => r.tasks.length)).sum,
       b + (ds.map (fun d =>
          match dget s.daily_data d with
          | none => 0
          | some r => day_completed r)).sum) := by
  induction ds generalizing a b with
  | nil => simp
  | cons d rest ih =>
    rw [List.foldl_cons, List.map_cons, List.map_cons, List.sum_cons, List.sum_cons]
    cases hd : dget s.daily_data d with
    | none => simp [hd, ih]
    | some r => simp [hd, ih, Nat.add_assoc]

theorem weekly_totals_eq (s : Store) (w : Int) :
    weekly_totals s w = (spec_weekTotal s w, spec_weekCompleted s w) := by
  have hfg : (fun d =>
        match dget s.daily_data d with
        | none => 0
        | some r => day_completed r)
      = (fun d =>
        match dget s.daily_data d with
        | none => 0
        | some r => (r.tasks.filter (fun t => decide (dget r.task_status t = some true))).length) := by
    funext d
    cases hd : dget s.daily_data d with
    | none => rfl
    | some r => exact day_completed_eq_filter r
  unfold weekly_totals spec_weekTotal spec_weekCompleted totalTaskCount
  rw [weekly_totals_fold, hfg]
  simp

end HabitTracker

namespace HabitTracker

/-! Per-day percentage lemmas and claims C1, C2, C7. -/

theorem countP_congr_mem {l : List String} {p q : String → Bool}
    (h : ∀ a ∈ l, p a = q a) : l.countP p = l.countP q := by
  induction l with
  | nil => rfl
  | cons a rest ih =>
    rw [List.countP_cons, List.countP_cons, h a (by simp),
      ih (fun x hx => h x (by simp [hx]))]

theorem day_percent_eq_specFloat (r : DayRecord) :
    day_percent r = spec_dayCompletionRateFloat r := by
  unfold day_percent spec_dayCompletionRateFloat totalTaskCount
  rw [day_completed_eq_filter]
  cases ht : r.tasks with
  | nil =>
    have hp : pyPercent 0 1 = 0 := by decide
    simpa using hp
  | cons a l =>
    have h0 : (a :: l).length ≠ 0 := by simp
    rw [if_neg (by simp), if_neg h0]

theorem spec_dayCompletionRate_eq (r : DayRecord) :
    spec_dayCompletionRate r
      = if totalTaskCount r = 0 then 0
        else (r.tasks.filter (fun t => decide (dget r.task_status t = some true))).length * 100 / totalTaskCount r := by
  unfold spec_dayCompletionRate
  by_cases h : totalTaskCount r = 0
  · simp [h]
  · simp [h, natFloor_ratio_mul_100]

theorem day_percent_orphan (r : DayRecord) (k : String) (b : Bool) (hk : k ∉ r.tasks) :
    day_percent ⟨r.tasks, (k, b) :: r.task_status, r.habits⟩ = day_percent r := by
  have hc : day_completed ⟨r.tasks, (k, b) :: r.task_status, r.habits⟩ = day_completed r := by
    unfold day_completed
    apply countP_congr_mem
    intro t ht2
    have hne : k ≠ t := fun he => hk (he ▸ ht2)
    simp [dget, hne]
  unfold day_percent
  rw [hc]

/-- C1 counterexample: at 29 completed of 50 tasks the program evaluates
int((29 / 50) * 100) with float arithmetic: 29 / 50 rounds to a binary64 just
under 0.58, the product rounds to 57.99999999999999289…, and int() truncates
to 57 - one below the exact truncated percentage 58 the claim asserts the
displayed rate to equal. -/
theorem c1_counterexample :
    dget fiftyTasksStore.daily_data 0 = some fiftyTasksRec ∧
    day_completed fiftyTasksRec = 29 ∧
    totalTaskCount fiftyTasksRec = 50 ∧
    dayCompletionRate fiftyTasksStore 0 = 57 ∧
    spec_dayCompletionRate fiftyTasksRec = 58 :=
  ⟨by decide, by decide, by decide, by decide,
    by rw [spec_dayCompletionRate_eq]; decide⟩

/-- C1 amended: for every date whose DayRecord exists, the displayed day
completion percentage is the int() truncation of the binary64 evaluation of
completedTaskCount / totalTaskCount * 100, where the denominator is the length
of that day record tasks list, the numerator counts the tasks-list names whose
task_status entry is true (a missing key counts as false, and a task_status
key outside the tasks list contributes to neither side), and the rate is 0
when the tasks list is empty; the float evaluation can land one below the
exact truncated percentage, as the counterexample shows. -/
theorem c1_day_completion_rate (s : Store) (d : Int) (r : DayRecord)
    (hr : dget s.daily_data d = some r) :
    dayCompletionRate s d = spec_dayCompletionRateFloat r ∧
    (r.tasks = [] → dayCompletionRate s d = 0) ∧
    (∀ k b, k ∉ r.tasks →
      day_percent ⟨r.tasks, (k, b) :: r.task_status, r.habits⟩ = day_percent r) := by
  have h1 : dayCompletionRate s d = day_percent r := by
    unfold dayCompletionRate
    rw [hr]
  refine ⟨h1.trans (day_percent_eq_specFloat r), ?_, ?_⟩
  · intro ht
    rw [h1]
    unfold day_percent day_completed
    have hp : pyPercent 0 1 = 0 := by decide
    simpa [ht] using hp
  · intro k b hk
    exact day_percent_orphan r k b hk

/-- Evaluation of c1_day_completion_rate at the concrete store c1Store. -/
theorem c1_day_completion_rate_witness :
    dget c1Store.daily_data 0 = some c1Rec ∧
    dayCompletionRate c1Store 0 = spec_dayCompletionRateFloat c1Rec ∧
    dayCompletionRate c1Store 0 = 66 :=
  ⟨by decide, (c1_day_completion_rate c1Store 0 c1Rec (by decide)).1, by decide⟩

/-- C2: the weekly habit percentage shown for a habit is the truncation of the
exact rational (trueCount / 7) * 100 over the 7 displayed days; a habit true
on exactly 3 of the 7 days is shown as the integer 42. -/
theorem c2_habit_weekly_rate (s : Store) (w : Int) (h : String) :
    habit_weekly_percent s w h = Nat.floor (calculate_habit_completion_rate s w h) ∧
    (habit_true_count s w h = 3 → habit_weekly_percent s w h = 42) := by
  constructor
  · unfold habit_weekly_percent calculate_habit_completion_rate
    simpa using (natFloor_ratio_mul_100 (habit_true_count s w h) 7).symm
  · intro h3
    unfold habit_weekly_percent
    rw [h3]

/-- Evaluation of c2_habit_weekly_rate at the concrete store c2Store. -/
theorem c2_habit_weekly_rate_witness :
    habit_true_count c2Store 0 "Sleep" = 3 ∧
    habit_weekly_percent c2Store 0 "Sleep" = 42 :=
  ⟨by decide, (c2_habit_weekly_rate c2Store 0 "Sleep").2 (by decide)⟩

theorem pyPercent_denominator7 (c : ℕ) (hc : c ≤ 7) :
    pyPercent c 7 = c * 100 / 7 := by
  interval_cases c <;> decide

theorem habit_weekly_percent_eq_pyPercent (s : Store) (w : Int) (h : String) :
    pyPercent (habit_true_count s w h) 7 = habit_weekly_percent s w h := by
  unfold habit_weekly_percent
  refine pyPercent_denominator7 _ ?_
  unfold habit_true_count
  exact le_trans (List.countP_le_length _) (le_of_eq rfl)

theorem spec_weeklyTaskRate_eq (s : Store) (w : Int) :
    spec_weeklyTaskRate s w
      = if spec_weekTotal s w = 0 then 0
        else spec_weekCompleted s w * 100 / spec_weekTotal s w := by
  unfold spec_weeklyTaskRate
  by_cases h : spec_weekTotal s w = 0
  · simp [h]
  · simp [h, natFloor_ratio_mul_100]

/-- C7 counterexample: a week holding one day with 29 of 50 tasks done has
aggregate counts 29 over 50; the program evaluates the float product to
57.99999999999999289… and displays 57, one below the exact truncated aggregate
percentage 58 the claim asserts. -/
theorem c7_counterexample :
    weekly_totals fiftyTasksStore 0 = (50, 29) ∧
    weekly_percent fiftyTasksStore 0 = 57 ∧
    spec_weeklyTaskRate fiftyTasksStore 0 = 58 :=
  ⟨by decide, by decide, by rw [spec_weeklyTaskRate_eq]; decide⟩

/-- C7 amended: the weekly task percentage is the int() truncation of the
binary64 evaluation of the aggregate completed sum over the aggregate total
sum times 100 across the 7 displayed days, and it is 0 whenever the aggregate
denominator is 0 (the division is guarded, so no division error can occur);
the float evaluation can land one below the exact truncated percentage, as the
counterexample shows. -/
theorem c7_weekly_task_rate (s : Store) (w : Int) :
    weekly_percent s w = spec_weeklyTaskRateFloat s w ∧
    (spec_weekTotal s w = 0 → weekly_percent s w = 0) := by
  have ht := weekly_totals_eq s w
  constructor
  · unfold weekly_percent spec_weeklyTaskRateFloat
    rw [ht]
    by_cases h0 : spec_weekTotal s w = 0
    · simp [h0]
    · have hpos : 0 < spec_weekTotal s w := Nat.pos_of_ne_zero h0
      simp only [if_pos hpos, if_neg h0]
  · intro h0
    unfold weekly_percent
    rw [ht]
    simp [h0]

/-- Evaluation of c7_weekly_task_rate at the empty store. -/
theorem c7_weekly_task_rate_witness :
    spec_weekTotal emptyStore 0 = 0 ∧ weekly_percent emptyStore 0 = 0 :=
  ⟨by decide, (c7_weekly_task_rate emptyStore 0).2 (by decide)⟩

end HabitTracker

namespace HabitTracker

/-! Claims C3 (missing-date toggle), C6 (idempotent add), C9 (duplicate
day task), C10 (blank input). -/

/-- C3 counterexample: toggling a habit for a date with no DayRecord does not
return silently: the dictionary subscript raises KeyError (modelled as the
error result), so the claim that the call does not raise fails at this input. -/
theorem c3_counterexample :
    dget emptyStore.daily_data 0 = none ∧
    update_habit emptyStore "H" 0 true = Except.error () :=
  ⟨rfl, rfl⟩

/-- C3 amended: toggling a habit for a date not present leaves the entire
store unchanged, but by raising a KeyError rather than by returning normally;
the installed report_callback_exception handler catches and logs the error on
the Tk callback path, so the dispatched toggle is a logged no-op with no
user-visible failure. -/
theorem c3_toggle_missing_date (s : Store) (habit : String) (d : Int) (v : Bool)
    (hd : dget s.daily_data d = none) :
    update_habit s habit d v = Except.error () ∧
    tkDispatch (fun st => update_habit st habit d v) s = s := by
  have h1 : update_habit s habit d v = Except.error () := by
    unfold update_habit
    rw [hd]
  refine ⟨h1, ?_⟩
  simp [tkDispatch, h1]

/-- Evaluation of c3_toggle_missing_date at the empty store and date 5. -/
theorem c3_toggle_missing_date_witness :
    dget emptyStore.daily_data 5 = none ∧
    (update_habit emptyStore "H" 5 true = Except.error () ∧
      tkDispatch (fun st => update_habit st "H" 5 true) emptyStore = emptyStore) :=
  ⟨by decide, c3_toggle_missing_date emptyStore "H" 5 true (by decide)⟩

theorem add_habit_global_mem (s : Store) (x : String) (hx : pyStrip x = x)
    (hmem : x ∈ s.habits) : add_habit_global s x = s := by
  simp [add_habit_global, hx, hmem]

theorem pyStrip_of_all_space (input : String) (h : input.data.all isPySpace = true) :
    pyStrip input = "" := by
  have h1 : input.data.dropWhile isPySpace = [] := by
    rw [List.dropWhile_eq_nil_iff]
    intro x hx
    exact List.all_eq_true.mp h x hx
  unfold pyStrip
  rw [h1]
  rfl

/-- C10: an input that is empty or consists only of whitespace strips to the
empty string and is rejected by the blank check of both add-habit entry
points; the whole store is returned unchanged and nothing is raised. -/
theorem c10_blank_add_habit (s : Store) (input : String)
    (h : input.data.all isPySpace = true) :
    add_habit_global s input = s ∧ add_habit_inline s input = s := by
  have hs := pyStrip_of_all_space input h
  constructor
  · simp [add_habit_global, hs]
  · simp [add_habit_inline, hs]

/-- Evaluation of c10_blank_add_habit on a two-space input. -/
theorem c10_blank_add_habit_witness :
    ("  ").data.all isPySpace = true ∧
    (add_habit_global emptyStore "  " = emptyStore ∧
      add_habit_inline emptyStore "  " = emptyStore) :=
  ⟨by decide, c10_blank_add_habit emptyStore "  " (by decide)⟩

/-- C6: adding the same trimmed non-empty habit name twice in a row leaves the
global habit list with exactly one occurrence of it (the store satisfying the
data-model uniqueness invariant, at most one occurrence beforehand); the
second call returns the first call result completely unchanged, so it changes
neither the list length nor any day record. -/
theorem c6_add_habit_idempotent (s : Store) (x : String)
    (hx : pyStrip x = x) (hne : x ≠ "") (hcount : s.habits.count x ≤ 1) :
    add_habit_global (add_habit_global s x) x = add_habit_global s x ∧
    (add_habit_global s x).habits.count x = 1 := by
  by_cases hmem : x ∈ s.habits
  · have h1 : add_habit_global s x = s := by
      simp [add_habit_global, hx, hne, hmem]
    have hpos : 0 < s.habits.count x := List.count_pos_iff.mpr hmem
    rw [h1]
    exact ⟨h1, by omega⟩
  · have h1 : add_habit_global s x =
        { s with
          habits := s.habits ++ [x],
          daily_data :=
            mapRecords (fun r => { r with habits := dset r.habits x false }) s.daily_data } := by
      simp [add_habit_global, hx, hne, hmem]
    have hmem2 : x ∈ (add_habit_global s x).habits := by
      rw [h1]
      simp
    refine ⟨add_habit_global_mem (add_habit_global s x) x hx hmem2, ?_⟩
    rw [h1]
    simp [List.count_append, List.count_eq_zero_of_not_mem hmem]

/-- Evaluation of c6_add_habit_idempotent at the empty store. -/
theorem c6_add_habit_idempotent_witness :
    pyStrip "H" = "H" ∧ ("H" : String) ≠ "" ∧ emptyStore.habits.count "H" ≤ 1 ∧
    (add_habit_global (add_habit_global emptyStore "H") "H" = add_habit_global emptyStore "H" ∧
      (add_habit_global emptyStore "H").habits.count "H" = 1) :=
  ⟨by decide, by decide, by decide,
    c6_add_habit_idempotent emptyStore "H" (by decide) (by decide) (by decide)⟩

/-- C9: add_task_template rejects duplicates only against the global template
list; on c9Store, where T is already a day-specific task of date 0 but not a
template, adding template T appends it to the day again, so the tasks list of
that day holds T twice and both occurrences count in the totalTaskCount
denominator. -/
theorem c9_template_duplicates_day_task :
    ("T" ∉ c9Store.task_templates) ∧
    dget c9Store.daily_data 0 = some ⟨["T"], [("T", true)], []⟩ ∧
    (add_task_template c9Store "T").task_templates = ["T"] ∧
    dget (add_task_template c9Store "T").daily_data 0 = some ⟨["T", "T"], [("T", false)], []⟩ ∧
    (["T", "T"] : List String).count "T" = 2 ∧
    totalTaskCount ⟨["T", "T"], [("T", false)], []⟩ = 2 := by
  decide

end HabitTracker

namespace HabitTracker

/-! Week initialization lemmas and claim C4. -/

theorem initDay_habits (s : Store) (d : Int) : (initDay s d).habits = s.habits := by
  unfold initDay
  cases hd : dget s.daily_data d with
  | none => rfl
  | some r => rfl

theorem initDay_templates (s : Store) (d : Int) :
    (initDay s d).task_templates = s.task_templates := by
  unfold initDay
  cases hd : dget s.daily_data d with
  | none => rfl
  | some r => rfl

theorem freshRecord_initDay (s : Store) (d : Int) :
    freshRecord (initDay s d) = freshRecord s := by
  unfold freshRecord
  rw [initDay_habits, initDay_templates]

theorem dget_initDay_ne (s : Store) (d d2 : Int) (h : d2 ≠ d) :
    dget (initDay s d).daily_data d2 = dget s.daily_data d2 := by
  unfold initDay
  cases hd : dget s.daily_data d with
  | none => exact dget_dset_ne s.daily_data d d2 _ h
  | some r => exact dget_dset_ne s.daily_data d d2 _ h

theorem dget_initDay_self (s : Store) (d : Int) :
    dget (initDay s d).daily_data d =
      some (match dget s.daily_data d with
            | none => freshRecord s
            | some r => { r with habits := reconcileHabits s.habits r.habits }) := by
  unfold initDay
  cases hd : dget s.daily_data d with
  | none => exact dget_dset_self s.daily_data d _
  | some r => exact dget_dset_self s.daily_data d _

theorem isSome_dget_initDay (s : Store) (d d2 : Int)
    (h : (dget s.daily_data d2).isSome = true) :
    (dget (initDay s d).daily_data d2).isSome = true := by
  by_cases he : d2 = d
  · subst he
    rw [dget_initDay_self]
    rfl
  · rwa [dget_initDay_ne s d d2 he]

theorem foldl_initDay_habits (ds : List Int) (s : Store) :
    (ds.foldl initDay s).habits = s.habits := by
  induction ds generalizing s with
  | nil => rfl
  | cons d rest ih => rw [List.foldl_cons, ih, initDay_habits]

theorem foldl_initDay_templates (ds : List Int) (s : Store) :
    (ds.foldl initDay s).task_templates = s.task_templates := by
  induction ds generalizing s with
  | nil => rfl
  | cons d rest ih => rw [List.foldl_cons, ih, initDay_templates]

theorem dget_foldl_initDay_not_mem (ds : List Int) :
    ∀ (s : Store) (d : Int), d ∉ ds →
      dget (ds.foldl initDay s).daily_data d = dget s.daily_data d := by
  induction ds with
  | nil => intro s d _; rfl
  | cons d2 rest ih =>
    intro s d h
    have hd2 : d ≠ d2 := by
      intro he
      exact h (by simp [he])
    have hrest : d ∉ rest := fun hm => h (by simp [hm])
    rw [List.foldl_cons, ih _ d hrest, dget_initDay_ne s d2 d hd2]

theorem dget_foldl_initDay_mem (ds : List Int) :
    ∀ (s : Store), ds.Nodup → ∀ d ∈ ds,
      dget (ds.foldl initDay s).daily_data d =
        some (match dget s.daily_data d with
              | none => freshRecord s
              | some r => { r with habits := reconcileHabits s.habits r.habits }) := by
  induction ds with
  | nil => intro s _ d hd; cases hd
  | cons d2 rest ih =>
    intro s hnd d hd
    rw [List.foldl_cons]
    rcases List.mem_cons.mp hd with he | hm
    · subst he
      have hnotin : d ∉ rest := (List.nodup_cons.mp hnd).1
      rw [dget_foldl_initDay_not_mem rest (initDay s d) d hnotin, dget_initDay_self]
    · have hne : d ≠ d2 := by
        intro he2
        exact (List.nodup_cons.mp hnd).1 (he2 ▸ hm)
      rw [ih (initDay s d2) (List.nodup_cons.mp hnd).2 d hm, dget_initDay_ne s d2 d hne,
        freshRecord_initDay, initDay_habits]

theorem reconcileHabits_cons (h0 : String) (rest : List String) (m : Dict String Bool) :
    reconcileHabits (h0 :: rest) m
      = reconcileHabits rest (if (dget m h0).isSome then m else dset m h0 false) := rfl

theorem dget_reconcile_of_some (hs : List String) :
    ∀ (m : Dict String Bool) (k : String) (v : Bool), dget m k = some v →
      dget (reconcileHabits hs m) k = some v := by
  induction hs with
  | nil => intro m k v h; exact h
  | cons h0 rest ih =>
    intro m k v h
    rw [reconcileHabits_cons]
    by_cases hg : (dget m h0).isSome = true
    · rw [if_pos hg]
      exact ih m k v h
    · rw [if_neg hg]
      apply ih
      by_cases hk : k = h0
      · subst hk
        exact absurd (by rw [h]; rfl) hg
      · rwa [dget_dset_ne m h0 k false hk]

theorem isSome_dget_reconcile (hs : List String) :
    ∀ (m : Dict String Bool) (k : String), (dget m k).isSome = true →
      (dget (reconcileHabits hs m) k).isSome = true := by
  induction hs with
  | nil => intro m k h; exact h
  | cons h0 rest ih =>
    intro m k h
    rw [reconcileHabits_cons]
    by_cases hg : (dget m h0).isSome = true
    · rw [if_pos hg]
      exact ih m k h
    · rw [if_neg hg]
      exact ih _ k (isSome_dget_dset m h0 k false h)

theorem isSome_dget_reconcile_mem (hs : List String) :
    ∀ (m : Dict String Bool) (h : String), h ∈ hs →
      (dget (reconcileHabits hs m) h).isSome = true := by
  induction hs with
  | nil => intro m h hmem; cases hmem
  | cons h0 rest ih =>
    intro m h hmem
    rw [reconcileHabits_cons]
    rcases List.mem_cons.mp hmem with he | hm
    · subst he
      by_cases hg : (dget m h).isSome = true
      · rw [if_pos hg]
        exact isSome_dget_reconcile rest m h hg
      · rw [if_neg hg]
        apply isSome_dget_reconcile rest
        rw [dget_dset_self]
        rfl
    · by_cases hg : (dget m h0).isSome = true
      · rw [if_pos hg]
        exact ih m h hm
      · rw [if_neg hg]
        exact ih _ h hm

theorem dget_reconcile_of_none (hs : List String) :
    ∀ (m : Dict String Bool) (h : String), h ∈ hs → dget m h = none →
      dget (reconcileHabits hs m) h = some false := by
  induction hs with
  | nil => intro m h hmem _; cases hmem
  | cons h0 rest ih =>
    intro m h hmem hnone
    rw [reconcileHabits_cons]
    by_cases he : h = h0
    · subst he
      rw [if_neg (by simp [hnone])]
      exact dget_reconcile_of_some rest _ h false (dget_dset_self m h false)
    · have hm : h ∈ rest := by
        rcases List.mem_cons.mp hmem with he2 | hm2
        · exact absurd he2 he
        · exact hm2
      by_cases hg : (dget m h0).isSome = true
      · rw [if_pos hg]
        exact ih m h hm hnone
      · rw [if_neg hg]
        apply ih _ h hm
        rwa [dget_dset_ne m h0 h false he]

theorem week_dates_eq (w : Int) :
    week_dates w = [w + 0, w + 1, w + 2, w + 3, w + 4, w + 5, w + 6] := rfl

theorem week_dates_nodup (w : Int) : (week_dates w).Nodup := by
  rw [week_dates_eq]
  simp only [List.nodup_cons, List.mem_cons, List.mem_singleton, List.not_mem_nil,
    List.nodup_nil, and_true, not_or, not_false_iff]
  omega

/-- C4: after initialize_week_data, each of the 7 dates of the week has a day
record.  A previously missing date gets a record whose tasks list is a copy of
the current template list and whose task_status and habits maps are all-false
exactly over those tasks and the current habit list.  A pre-existing record
keeps its tasks, task_status and every existing habits entry, no habits key is
removed, and every global habit absent from the habits map is inserted with
value false, so the habits key set covers the global habit list. -/
theorem c4_initialize_week (s : Store) (w : Int) (d : Int) (hd : d ∈ week_dates w) :
    ((dget (initialize_week_data s w).daily_data d).isSome = true) ∧
    (dget s.daily_data d = none →
      ∃ r2, dget (initialize_week_data s w).daily_data d = some r2 ∧
        r2.tasks = s.task_templates ∧
        (∀ t, dget r2.task_status t = if t ∈ s.task_templates then some false else none) ∧
        (∀ h, dget r2.habits h = if h ∈ s.habits then some false else none)) ∧
    (∀ r, dget s.daily_data d = some r →
      ∃ r2, dget (initialize_week_data s w).daily_data d = some r2 ∧
        r2.tasks = r.tasks ∧ r2.task_status = r.task_status ∧
        (∀ k v, dget r.habits k = some v → dget r2.habits k = some v) ∧
        (∀ h ∈ s.habits, dget r.habits h = none → dget r2.habits h = some false) ∧
        (∀ h ∈ s.habits, (dget r2.habits h).isSome = true)) := by
  have hmain := dget_foldl_initDay_mem (week_dates w) s (week_dates_nodup w) d hd
  have hinit : initialize_week_data s w = (week_dates w).foldl initDay s := rfl
  rw [← hinit] at hmain
  refine ⟨?_, ?_, ?_⟩
  · rw [hmain]
    rfl
  · intro hnone
    rw [hnone] at hmain
    refine ⟨freshRecord s, hmain, rfl, ?_, ?_⟩
    · intro t
      exact dget_allFalseDict s.task_templates t
    · intro h
      exact dget_allFalseDict s.habits h
  · intro r hr
    rw [hr] at hmain
    refine ⟨{ r with habits := reconcileHabits s.habits r.habits }, hmain, rfl, rfl, ?_, ?_, ?_⟩
    · intro k v hv
      exact dget_reconcile_of_some s.habits r.habits k v hv
    · intro h hh hnone
      exact dget_reconcile_of_none s.habits r.habits h hh hnone
    · intro h hh
      exact isSome_dget_reconcile_mem s.habits r.habits h hh

/-- Evaluation of c4_initialize_week at c4Store, week 0, date 1. -/
theorem c4_initialize_week_witness :
    (1 : Int) ∈ week_dates 0 ∧
    (dget (initialize_week_data c4Store 0).daily_data 1).isSome = true ∧
    dget (initialize_week_data c4Store 0).daily_data 1
      = some ⟨["T0"], [("T0", true)], [("X", true), ("H", false)]⟩ :=
  ⟨by decide, (c4_initialize_week c4Store 0 1 (by decide)).1, by decide⟩

end HabitTracker

namespace HabitTracker

/-! List lemmas for in-place rename, and claims C5 and C8. -/

theorem listIndex_lt_length {l : List String} {a : String} (h : a ∈ l) :
    listIndex l a < l.length := by
  induction l with
  | nil => cases h
  | cons x xs ih =>
    by_cases hx : x = a
    · simp [listIndex, hx]
    · have hmem : a ∈ xs := by
        rcases List.mem_cons.mp h with he | hm
        · exact absurd he.symm hx
        · exact hm
      simpa [listIndex, hx] using Nat.succ_lt_succ (ih hmem)

theorem mem_set_of_lt {l : List String} {i : Nat} (h : i < l.length) (b : String) :
    b ∈ l.set i b := by
  induction l generalizing i with
  | nil => simp at h
  | cons x xs ih =>
    cases i with
    | zero => simp [List.set]
    | succ n =>
      have hn : n < xs.length := by simpa using h
      simp only [List.set, List.mem_cons]
      exact Or.inr (ih hn)

theorem not_mem_set_of_count_one {l : List String} {a b : String}
    (h1 : l.count a = 1) (hb : b ≠ a) : a ∉ l.set (listIndex l a) b := by
  induction l with
  | nil => simp
  | cons x xs ih =>
    by_cases hx : x = a
    · subst hx
      have hxs : xs.count x = 0 := by
        have hcc := List.count_cons_self x xs
        omega
      have hnm : x ∉ xs := List.count_eq_zero.mp hxs
      simp only [listIndex, if_pos rfl, List.set, List.mem_cons, not_or]
      exact ⟨Ne.symm hb, hnm⟩
    · have hxs : xs.count a = 1 := by
        have hcc := List.count_cons a x xs
        have hxa : ¬(x == a) = true := by simpa using hx
        simp [hxa] at hcc
        omega
      simp only [listIndex, if_neg hx, List.set, List.mem_cons, not_or]
      exact ⟨fun he => hx he.symm, ih hxs⟩

theorem listIndex_set_self {l : List String} {a b : String}
    (ha : a ∈ l) (hb : b ∉ l) :
    listIndex (l.set (listIndex l a) b) b = listIndex l a := by
  induction l with
  | nil => cases ha
  | cons x xs ih =>
    by_cases hx : x = a
    · simp [listIndex, hx, List.set]
    · have hmem : a ∈ xs := by
        rcases List.mem_cons.mp ha with he | hm
        · exact absurd he.symm hx
        · exact hm
      have hbxs : b ∉ xs := fun hm => hb (List.mem_cons_of_mem x hm)
      have hbx : x ≠ b := fun he => hb (by simp [he])
      simp [listIndex, hx, List.set, hbx, ih hmem hbxs]

theorem set_set_listIndex {l : List String} {a : String} (ha : a ∈ l) (b : String) :
    (l.set (listIndex l a) b).set (listIndex l a) a = l := by
  induction l with
  | nil => cases ha
  | cons x xs ih =>
    by_cases hx : x = a
    · simp [listIndex, hx, List.set]
    · have hmem : a ∈ xs := by
        rcases List.mem_cons.mp ha with he | hm
        · exact absurd he.symm hx
        · exact hm
      simp [listIndex, hx, List.set, ih hmem]

/-- C5 counterexample: with the empty string as the habit a (a member of the
global habit list of c5Store) and the trimmed non-empty name y not in the
list, renaming a to y succeeds but renaming y back to a is rejected by the
blank-input check, so the double rename does not restore the original list. -/
theorem c5_counterexample :
    ("" ∈ c5Store.habits) ∧
    pyStrip "y" = "y" ∧ ("y" : String) ≠ "" ∧ "y" ∉ c5Store.habits ∧
    (edit_habit (edit_habit c5Store "" "y") "y" "").habits ≠ c5Store.habits := by
  decide

/-- C5 amended: the rename round-trip does restore the global habit list and
every day-level value of a, provided additionally that a is itself a trimmed
non-empty name and occurs exactly once in the habit list (the data-model
uniqueness invariant); without those extra conditions the second rename can be
rejected, as the counterexample shows. -/
theorem c5_rename_roundtrip (s : Store) (a b : String)
    (hc : s.habits.count a = 1) (hb : b ∉ s.habits) (hba : b ≠ a)
    (hbt : pyStrip b = b) (hbe : b ≠ "") (hat : pyStrip a = a) (hae : a ≠ "") :
    (edit_habit (edit_habit s a b) b a).habits = s.habits ∧
    (∀ d r, dget s.daily_data d = some r →
      ∃ r2, dget (edit_habit (edit_habit s a b) b a).daily_data d = some r2 ∧
        (∀ v, dget r.habits a = some v → dget r2.habits a = some v)) := by
  have ha : a ∈ s.habits := List.count_pos_iff.mp (by omega)
  have hab : a ≠ b := fun he => hba he.symm
  have h1 : edit_habit s a b
      = { s with habits := s.habits.set (listIndex s.habits a) b, daily_data := mapRecords (fun r => { r with habits := dset (derase r.habits a) b ((dget r.habits a).getD false) }) s.daily_data } := by
    simp [edit_habit, hbt, hbe, hba, hb, ha]
  have hnp : a ∉ s.habits.set (listIndex s.habits a) b :=
    not_mem_set_of_count_one hc hba
  have hmb : b ∈ s.habits.set (listIndex s.habits a) b :=
    mem_set_of_lt (listIndex_lt_length ha) b
  have h2 : edit_habit (edit_habit s a b) b a
      = { edit_habit s a b with habits := (edit_habit s a b).habits.set (listIndex (edit_habit s a b).habits b) a, daily_data := mapRecords (fun r => { r with habits := dset (derase r.habits b) a ((dget r.habits b).getD false) }) (edit_habit s a b).daily_data } := by
    rw [h1]
    simp [edit_habit, hat, hae, hab, hnp, hmb]
  constructor
  · rw [h2, h1]
    simp only
    rw [listIndex_set_self ha hb, set_set_listIndex ha b]
  · intro d r hr
    rw [h2, h1]
    simp only [dget_mapRecords, hr, Option.map_some]
    refine ⟨_, rfl, ?_⟩
    intro v hv
    simp only [dget_dset_self, Option.getD_some, hv]

/-- Evaluation of c5_rename_roundtrip at c5WitStore with habits a and b. -/
theorem c5_rename_roundtrip_witness :
    c5WitStore.habits.count "a" = 1 ∧ "b" ∉ c5WitStore.habits ∧
    (edit_habit (edit_habit c5WitStore "a" "b") "b" "a").habits = c5WitStore.habits ∧
    dget (edit_habit (edit_habit c5WitStore "a" "b") "b" "a").daily_data 0
      = some ⟨[], [], [("a", true)]⟩ :=
  ⟨by decide, by decide,
    (c5_rename_roundtrip c5WitStore "a" "b" (by decide) (by decide) (by decide)
      (by decide) (by decide) (by decide) (by decide)).1,
    by decide⟩

/-- C8 counterexample: deleting a habit name that is absent from the global
habit list is a complete no-op, so an orphaned habits key under a day record
is not removed, refuting the claim that the key is removed from every
DayRecord. -/
theorem c8_counterexample :
    ("Read" ∉ c8Store.habits) ∧
    delete_habit c8Store "Read" true = c8Store ∧
    dget c8Store.daily_data 0 = some c8Rec ∧
    dget c8Rec.habits "Read" = some true := by
  decide

/-- C8 amended: when the name is in the global habit list (and the user
confirms the dialog), delete_habit removes it from the list and removes the
habits[name] key from every DayRecord, leaving the other habits with their
order and day-level values, every tasks list and task_status map, and the
template list unchanged; when the name is not in the list the call is a
complete no-op, so orphaned day-level keys are kept. -/
theorem c8_delete_habit (s : Store) (name : String) (hnd : s.habits.Nodup) :
    (name ∈ s.habits →
      ((delete_habit s name true).habits = s.habits.filter (fun h => h != name) ∧
        name ∉ (delete_habit s name true).habits ∧
        (delete_habit s name true).task_templates = s.task_templates ∧
        (∀ d r, dget s.daily_data d = some r →
          ∃ r2, dget (delete_habit s name true).daily_data d = some r2 ∧
            dget r2.habits name = none ∧
            (∀ h2, h2 ≠ name → dget r2.habits h2 = dget r.habits h2) ∧
            r2.tasks = r.tasks ∧ r2.task_status = r.task_status))) ∧
    (name ∉ s.habits → delete_habit s name true = s) := by
  constructor
  · intro hmem
    have h1 : delete_habit s name true
        = { s with habits := s.habits.erase name, daily_data := mapRecords (fun r => { r with habits := derase r.habits name }) s.daily_data } := by
      simp [delete_habit, hmem]
    refine ⟨?_, ?_, ?_, ?_⟩
    · rw [h1]
      simpa using hnd.erase_eq_filter name
    · rw [h1]
      show name ∉ s.habits.erase name
      rw [hnd.erase_eq_filter name]
      simp
    · rw [h1]
    · intro d r hr
      rw [h1]
      simp only [dget_mapRecords, hr, Option.map_some]
      refine ⟨_, rfl, dget_derase_self r.habits name, ?_, rfl, rfl⟩
      intro h2 hne
      exact dget_derase_ne r.habits name h2 hne
  · intro hmem
    simp [delete_habit, hmem]

/-- Evaluation of c8_delete_habit at c8WitStore with habit Read. -/
theorem c8_delete_habit_witness :
    c8WitStore.habits.Nodup ∧ "Read" ∈ c8WitStore.habits ∧
    "Read" ∉ (delete_habit c8WitStore "Read" true).habits ∧
    (delete_habit c8WitStore "Read" true).habits = ["Sleep"] :=
  ⟨by decide, by decide,
    ((c8_delete_habit c8WitStore "Read" (by decide)).1 (by decide)).2.1,
    by decide⟩

end HabitTracker
